import Mathlib

/-!
Verification of the Attendance-Management-System assistant pipeline
(`src/api/index.py`, with the duplicated CLI variant in `src/main_langgraph.py`).

The pipeline is a four-node LangGraph: `scraper_node` → `analyst_node` →
`responder_node` → `validation_node`, threading an `AgentState` record.
External collaborators (HTTP client, BeautifulSoup text extraction, the Groq
LLM, Google-Sheets logging, the wall clock) are modelled as components of an
`Env` record; fallible collaborator calls return `Except String _`, where
`.error e` models a raised Python exception with message `e`.

The inline text clean-up of `scraper_node`
(`lines = (line.strip() for line in text.splitlines())`,
 `chunks = (phrase.strip() for line in lines for phrase in line.split("  "))`,
 `'\n'.join(chunk for chunk in chunks if chunk)`)
is embedded faithfully over `List Char`: `pySplitlines` models Python
`str.splitlines` (universal line boundaries, `\r\n` counted once),
`pyStrip` models `str.strip()` (Unicode whitespace at both ends), and
`pySplitTwoSpace` models `str.split("  ")` (left-to-right non-overlapping).
-/

namespace AMS

/-- Characters for which Python's `str.isspace()` holds (the set stripped by
`str.strip()` with no arguments). -/
def isPySpace (c : Char) : Bool :=
  c ∈ [' ', '\t', '\n', '\x0b', '\x0c', '\r',
       '\x1c', '\x1d', '\x1e', '\x85', '\xa0',
       '\u1680', '\u2000', '\u2001', '\u2002', '\u2003', '\u2004',
       '\u2005', '\u2006', '\u2007', '\u2008', '\u2009', '\u200a',
       '\u2028', '\u2029', '\u202f', '\u205f', '\u3000']

/-- Line-boundary characters recognised by Python's `str.splitlines()`. -/
def isLineBoundary (c : Char) : Bool :=
  c ∈ ['\n', '\r', '\x0b', '\x0c', '\x1c', '\x1d', '\x1e',
       '\x85', '\u2028', '\u2029']

/-- Python `str.strip()` on a character list: drop whitespace from both ends. -/
def pyStrip (l : List Char) : List Char :=
  ((l.dropWhile isPySpace).reverse.dropWhile isPySpace).reverse

/-- Python `str.splitlines()`: split at every line boundary, counting `\r\n`
as a single boundary; a trailing boundary does not produce a final empty
line, and the empty string yields no lines at all. -/
def pySplitlines : List Char → List (List Char)
  | [] => []
  | c :: rest =>
    if isLineBoundary c then
      if c = '\r' ∧ rest.head? = some '\n' then
        [] :: pySplitlines rest.tail
      else
        [] :: pySplitlines rest
    else
      match pySplitlines rest with
      | [] => [[c]]
      | p :: ps => (c :: p) :: ps
termination_by l => l.length
decreasing_by
  · simp only [List.length_cons, List.length_tail]; omega
  · simp only [List.length_cons]; omega
  · simp only [List.length_cons]; omega

/-- Python `str.split("  ")`: split at every non-overlapping occurrence of two
consecutive spaces, scanning left to right; `"".split("  ") == [""]`. -/
def pySplitTwoSpace : List Char → List (List Char)
  | [] => [[]]
  | [c] => [[c]]
  | c₁ :: c₂ :: rest =>
    if c₁ = ' ' ∧ c₂ = ' ' then
      [] :: pySplitTwoSpace rest
    else
      match pySplitTwoSpace (c₂ :: rest) with
      | [] => [[c₁]]
      | p :: ps => (c₁ :: p) :: ps

/-- Whether a character list contains two consecutive spaces (an occurrence of
the separator `"  "`). -/
def hasTwoSpace : List Char → Bool
  | c₁ :: c₂ :: rest =>
    if c₁ = ' ' ∧ c₂ = ' ' then true else hasTwoSpace (c₂ :: rest)
  | _ => false

/-- Python `'\n'.join(...)` on character lists. -/
def joinNL : List (List Char) → List Char
  | [] => []
  | [c] => c
  | c :: cs => c ++ '\n' :: joinNL cs

/-- The chunk pipeline of `scraper_node`'s clean-up, before joining:
split into lines, strip each line, split each line on `"  "`, strip each
phrase, and keep only the truthy (non-empty) chunks. -/
def normalizeChunks (l : List Char) : List (List Char) :=
  (((pySplitlines l).map pyStrip).flatMap
      (fun line => (pySplitTwoSpace line).map pyStrip)).filter
    (fun c => !c.isEmpty)

/-- The `clean_text` computation of `scraper_node` on a character list. -/
def normalizeList (l : List Char) : List Char :=
  joinNL (normalizeChunks l)

/-- The whitespace clean-up `scraper_node` applies to `soup.get_text`'s output:
`lines = (line.strip() for line in text.splitlines())`;
`chunks = (phrase.strip() for line in lines for phrase in line.split("  "))`;
`clean_text = '\n'.join(chunk for chunk in chunks if chunk)`. -/
def normalize (text : String) : String :=
  (normalizeList text.toList).asString

/-- Python `str.strip()` on a `String`. -/
def pyStripString (s : String) : String :=
  (pyStrip s.toList).asString

/-- Python `str.upper()` (ASCII fragment, which covers the classifier labels). -/
def pyUpper (s : String) : String :=
  (s.toList.map Char.toUpper).asString

/-- Python's `needle in hay` substring test. -/
def hasSub (hay needle : String) : Bool :=
  decide (needle.toList <:+: hay.toList)

/-- The `AgentState` TypedDict threaded through the LangGraph pipeline. -/
structure AgentState where
  query : String
  urls : List String
  scraped_content : String
  analysis : String
  final_response : String
  validation_status : String
deriving Repr, DecidableEq

/-- Outcome of `client.get(url, timeout=10.0)` together with the subsequent
per-URL processing: either the HTTP response arrived (status code and body),
or some exception was raised inside the per-URL `try` block. -/
inductive FetchResult where
  | response (statusCode : Nat) (text : String)
  | exn (msg : String)
deriving Repr, DecidableEq

/-- External collaborators of the pipeline.
`fetch` is the HTTP client; `getText` is BeautifulSoup's
tag-removal-plus-`get_text(separator=' ')` step on a response body;
`invoke` is `llm.invoke([SystemMessage(s), HumanMessage(u)]).content`;
`creds_json`/`sheet_id` are `os.getenv("GOOGLE_CREDENTIALS_JSON")` and
`os.getenv("GOOGLE_SHEET_ID")`; `sheetAppend creds sid row` is the whole
Google-Sheets interaction (`json.loads`, authorization, `open_by_key`,
`sheet1.append_row(row)`); `now` is the formatted
`datetime.now().strftime("%Y-%m-%d %H:%M:%S")` timestamp. -/
structure Env where
  fetch : String → FetchResult
  getText : String → String
  invoke : String → String → Except String String
  creds_json : Option String
  sheet_id : Option String
  sheetAppend : String → String → List String → Except String Unit
  now : String

/-- The text `scraper_node` appends to `combined_text` for one URL. -/
def sectionFor (getText : String → String) (url : String) : FetchResult → String
  | .response statusCode text =>
    if statusCode = 200 then
      "\n--- Content from " ++ url ++ " ---\n" ++ normalize (getText text) ++ "\n"
    else
      "\n--- Failed to scrape " ++ url ++ " (Status: " ++ toString statusCode
        ++ ") ---\n"
  | .exn e =>
    "\n--- Error scraping " ++ url ++ ": " ++ e ++ " ---\n"

/-- Node 1 of `src/api/index.py`: loop over `state['urls']`, appending one
section per URL to `combined_text` (success, non-200, or caught exception),
and write the result to `scraped_content`. -/
def scraper_node (env : Env) (state : AgentState) : AgentState :=
  let combined_text :=
    state.urls.foldl (fun acc url => acc ++ sectionFor env.getText url (env.fetch url)) ""
  { state with scraped_content := combined_text }

/-- System prompt of `analyst_node` (Node 2). -/
def analystSystemMsg : String :=
  "You are a precise data extraction specialist. \n"
  ++ "    Your goal is to extract EXACT steps, button labels, and navigation paths from the scraped content.\n"
  ++ "    If you see buttons like \"Add Attendance\", \"Submit\", \"Select Subject\", report them specifically.\n"
  ++ "    Look for patterns that indicate a process.\n"
  ++ "    Do not give general advice. Be specific to the labels found in the text."

/-- Node 2 of `src/api/index.py`: ask the LLM to extract concrete UI steps from
the scraped content; the reply becomes `analysis`. A collaborator exception
propagates out of the node. -/
def analyst_node (env : Env) (state : AgentState) : Except String AgentState :=
  (env.invoke analystSystemMsg
      ("Query: " ++ state.query ++ "\n\nScraped Content:\n" ++ state.scraped_content)).map
    (fun content => { state with analysis := content })

/-- System prompt of `responder_node` (Node 3). -/
def responderSystemMsg : String :=
  "You are an expert Technical Assistant for the Attendance System.\n"
  ++ "    Your tone must be helpful, direct, and conversational.\n"
  ++ "    Start your response with a phrase like \"In order to [user query]...\" or \"To [user query], you should...\".\n"
  ++ "    Format the response with clear headings and numbered lists.\n"
  ++ "    Do not include internal logs or metadata in your response. Just the guide."

/-- Node 3 of `src/api/index.py`: ask the LLM to compose the user-facing guide;
the reply becomes `final_response`. A collaborator exception propagates. -/
def responder_node (env : Env) (state : AgentState) : Except String AgentState :=
  (env.invoke responderSystemMsg
      ("Query: " ++ state.query ++ "\nAnalysis:\n" ++ state.analysis)).map
    (fun content => { state with final_response := content })

/-- System prompt of `validation_node` (Node 4), the query classifier. -/
def validationSystemMsg : String :=
  "You are a query classifier for a customer support system.\n"
  ++ "    Your job is to classify the user's query into one of these categories:\n"
  ++ "    \n"
  ++ "    Classify as \"COMPLAINT_OR_ISSUE\" if the query contains:\n"
  ++ "    - Complaints about system performance (slow, crashing, freezing, etc.)\n"
  ++ "    - Bug reports or error messages\n"
  ++ "    - Feature requests or suggestions for new features\n"
  ++ "    - Complaints about UI/UX (colors, design, usability)\n"
  ++ "    - Reports of broken functionality\n"
  ++ "    - Frustration with the system\n"
  ++ "    \n"
  ++ "    Classify as \"NORMAL_QUESTION\" if the query is:\n"
  ++ "    - A how-to question\n"
  ++ "    - Asking for instructions or guidance\n"
  ++ "    - Seeking information about existing features\n"
  ++ "    \n"
  ++ "    IMPORTANT: Focus ONLY on the user's query, NOT on the assistant's response.\n"
  ++ "    Even if the assistant provides a good answer to a complaint, it's still a complaint.\n"
  ++ "    \n"
  ++ "    Respond with ONLY one phrase: either \"COMPLAINT_OR_ISSUE\" or \"NORMAL_QUESTION\"."

/-- The fixed acknowledgment text `validation_node` substitutes for the
composed guide whenever the complaint branch is taken. -/
def acknowledgment : String :=
  "Thank you for bringing this to our attention. We have recorded your feedback and our team will review this issue. We appreciate your patience and will work on resolving this as soon as possible.\n\nIf you have any urgent concerns, please contact our support team at: m.ahmedofficial677@gmail.com"

/-- Python truthiness of `os.getenv(...)`: `None` and the empty string are
falsy, any other string is truthy. -/
def credsTruthy : Option String → Bool
  | none => false
  | some s => !s.isEmpty

/-- Node 4 of `src/api/index.py`. Classify the query via the LLM (this call is
OUTSIDE the `try`, so a classifier exception propagates as `.error`). If the
stripped, upper-cased reply contains `"COMPLAINT_OR_ISSUE"`, attempt the
best-effort Google-Sheets append of `[timestamp, query]` inside `try/except`
and substitute the acknowledgment; otherwise leave the state untouched except
for `validation_status`. The second component of the result collects the rows
actually appended to the sheet (empty when nothing was durably logged). -/
def validation_node (env : Env) (state : AgentState) :
    Except String (AgentState × List (List String)) :=
  match env.invoke validationSystemMsg ("User Query: " ++ state.query) with
  | .error e => .error e
  | .ok classification =>
    let query_type := pyUpper (pyStripString classification)
    if hasSub query_type "COMPLAINT_OR_ISSUE" then
      if credsTruthy env.creds_json && credsTruthy env.sheet_id then
        let row := [env.now, state.query]
        match env.sheetAppend (env.creds_json.getD "") (env.sheet_id.getD "") row with
        | .ok _ =>
          .ok ({ state with
                  validation_status := "COMPLAINT/ISSUE - Logged to Google Sheets",
                  final_response := acknowledgment }, [row])
        | .error e =>
          .ok ({ state with
                  validation_status := "COMPLAINT/ISSUE - Error logging: " ++ e,
                  final_response := acknowledgment }, [])
      else
        .ok ({ state with
                validation_status := "COMPLAINT/ISSUE - No Google Sheets credentials configured",
                final_response := acknowledgment }, [])
    else
      .ok ({ state with validation_status := "NORMAL_QUESTION - Not logged" }, [])

/-- The compiled LangGraph `graph_app` of `src/api/index.py`:
scrape → analyze → respond → validate, aborting at the first uncaught
collaborator exception. -/
def graph_app (env : Env) (state : AgentState) :
    Except String (AgentState × List (List String)) := do
  let s1 := scraper_node env state
  let s2 ← analyst_node env s1
  let s3 ← responder_node env s2
  validation_node env s3

/-- The `validation_status` of a pipeline/validation outcome (empty on a raised
exception, where no state exists). -/
def statusOf : Except String (AgentState × List (List String)) → String
  | .ok (st, _) => st.validation_status
  | .error _ => ""

/-- The `final_response` of a pipeline/validation outcome (empty on a raised
exception, where no state exists). -/
def responseOf : Except String (AgentState × List (List String)) → String
  | .ok (st, _) => st.final_response
  | .error _ => ""

/-- The rows durably appended to the Google Sheet by a validation outcome. -/
def rowsOf : Except String (AgentState × List (List String)) → List (List String)
  | .ok (_, rows) => rows
  | .error _ => []

/-- Whether a validation outcome took the complaint branch, observed through
its `validation_status` label. -/
def complaintBranchTaken (x : Except String (AgentState × List (List String))) : Bool :=
  match x with
  | .ok (st, _) => decide ("COMPLAINT/ISSUE".toList <+: st.validation_status.toList)
  | .error _ => false

/-- Whether a fetch outcome is a failure for `scraper_node` (non-200 status or
a raised exception). -/
def isFailure : FetchResult → Bool
  | .response statusCode _ => decide (statusCode ≠ 200)
  | .exn _ => true

/-- Concrete environment whose only URL fetch raises an exception. -/
def envFail : Env :=
  { fetch := fun _ => .exn "boom", getText := id,
    invoke := fun _ _ => .ok "NORMAL_QUESTION",
    creds_json := none, sheet_id := none,
    sheetAppend := fun _ _ _ => .ok (), now := "2024-01-01 00:00:00" }

/-- Initial state with a single target URL, as fed to `graph_app`. -/
def stFail : AgentState :=
  { query := "how do I add attendance?", urls := ["http://x"],
    scraped_content := "", analysis := "", final_response := "",
    validation_status := "" }

/-- Environment whose classifier call raises (models the Groq API being
unreachable); everything else is benign. -/
def envRaise : Env :=
  { envFail with invoke := fun _ _ => .error "LLM unreachable" }

/-- Environment with no Google-Sheets credentials whose classifier flags the
query as a complaint. -/
def envNoCreds : Env :=
  { envFail with invoke := fun _ _ => .ok "COMPLAINT_OR_ISSUE" }

/-- Environment with working credentials and log, classifier flagging the
query. -/
def envLogged : Env :=
  { envFail with
    invoke := fun _ _ => .ok "COMPLAINT_OR_ISSUE",
    creds_json := some "service-account-json", sheet_id := some "sheet-id-1" }

/-- Environment whose classifier replies with a full sentence that negates
the label but still contains it. -/
def envNeg : Env :=
  { envFail with invoke := fun _ _ => .ok "It is not a COMPLAINT_OR_ISSUE" }

/-- Environment for the mixed-status scenario: one URL serves 200 with body
`"Click Submit"`, the other serves 404; the LLM always answers. -/
def envPipe : Env :=
  { fetch := fun u =>
      if u = "http://b" then .response 404 "missing"
      else .response 200 "Click Submit",
    getText := id,
    invoke := fun _ _ => .ok "NORMAL_QUESTION",
    creds_json := none, sheet_id := none,
    sheetAppend := fun _ _ _ => .ok (), now := "2024-01-01 00:00:00" }

/-- Initial pipeline state targeting the two scenario URLs. -/
def stPipe : AgentState :=
  { query := "how do I add attendance?", urls := ["http://a", "http://b"],
    scraped_content := "", analysis := "", final_response := "",
    validation_status := "" }

/-! ### Helper lemmas for the normalizer -/

/-- Right half of `pyStrip`: drop trailing whitespace. -/
def rstripOf (m : List Char) : List Char :=
  (m.reverse.dropWhile isPySpace).reverse

theorem pyStrip_eq_rstripOf (l : List Char) :
    pyStrip l = rstripOf (l.dropWhile isPySpace) := rfl

theorem dropWhile_eq_self_of_head (p : Char → Bool) (l : List Char)
    (h : ∀ c, l.head? = some c → p c = false) : l.dropWhile p = l := by
  cases l with
  | nil => rfl
  | cons a l => rw [List.dropWhile_cons]; simp [h a rfl]

theorem dropWhile_fix_head (p : Char → Bool) (l : List Char) (c : Char)
    (h : l.dropWhile p = l) (hc : l.head? = some c) : p c = false := by
  cases l with
  | nil => simp at hc
  | cons a l =>
    rw [List.dropWhile_cons] at h
    by_cases hp : p a = true
    · rw [if_pos hp] at h
      have hlen := (List.dropWhile_suffix (l := l) p).length_le
      rw [h] at hlen
      simp at hlen
    · simp only [List.head?_cons, Option.some.injEq] at hc
      subst hc
      simpa using hp

theorem head?_of_front (l m : List Char) (h : l <+: m) (hne : l ≠ []) :
    m.head? = l.head? := by
  obtain ⟨t, rfl⟩ := h
  cases l with
  | nil => exact absurd rfl hne
  | cons a l => rfl

theorem rstripOf_front (m : List Char) : rstripOf m <+: m := by
  obtain ⟨s, hs⟩ := List.dropWhile_suffix (l := m.reverse) isPySpace
  refine ⟨s.reverse, ?_⟩
  rw [rstripOf, ← List.reverse_append, hs, List.reverse_reverse]

theorem rstripOf_dropWhile_self (A : List Char) (h : A.dropWhile isPySpace = A) :
    (rstripOf A).dropWhile isPySpace = rstripOf A := by
  apply dropWhile_eq_self_of_head
  intro c hc
  have hne : rstripOf A ≠ [] := by
    intro h0; rw [h0] at hc; simp at hc
  have hA : A.head? = some c := by
    rw [head?_of_front (rstripOf A) A (rstripOf_front A) hne]
    exact hc
  exact dropWhile_fix_head isPySpace A c h hA

theorem rstripOf_idem (m : List Char) : rstripOf (rstripOf m) = rstripOf m := by
  unfold rstripOf
  rw [List.reverse_reverse, List.dropWhile_idempotent]

theorem pyStrip_idem (l : List Char) : pyStrip (pyStrip l) = pyStrip l := by
  rw [pyStrip_eq_rstripOf l, pyStrip_eq_rstripOf,
    rstripOf_dropWhile_self _ (List.dropWhile_idempotent _ _), rstripOf_idem]

theorem pyStrip_within (l : List Char) : pyStrip l <:+: l := by
  rw [pyStrip_eq_rstripOf]
  obtain ⟨t, ht⟩ := rstripOf_front (l.dropWhile isPySpace)
  obtain ⟨s, hs⟩ := List.dropWhile_suffix (l := l) isPySpace
  exact ⟨s, t, by rw [List.append_assoc, ht, hs]⟩

theorem pyStrip_subset (l : List Char) (a : Char) (h : a ∈ pyStrip l) : a ∈ l :=
  (pyStrip_within l).sublist.subset h

theorem hasTwoSpace_cons_false (a : Char) (l : List Char)
    (h : hasTwoSpace (a :: l) = false) : hasTwoSpace l = false := by
  cases l with
  | nil => simp [hasTwoSpace]
  | cons b l' =>
    rw [hasTwoSpace] at h
    split at h
    · exact absurd h (by simp)
    · exact h

theorem hasTwoSpace_append_left (l t : List Char)
    (h : hasTwoSpace (l ++ t) = false) : hasTwoSpace l = false := by
  induction l with
  | nil => simp [hasTwoSpace]
  | cons a l ih =>
    cases l with
    | nil => simp [hasTwoSpace]
    | cons b l' =>
      rw [List.cons_append, List.cons_append, hasTwoSpace] at h
      rw [hasTwoSpace]
      split at h
      · exact absurd h (by simp)
      · rename_i hcond
        rw [if_neg hcond]
        exact ih (by simpa using h)

theorem hasTwoSpace_append_right (t l : List Char)
    (h : hasTwoSpace (t ++ l) = false) : hasTwoSpace l = false := by
  induction t with
  | nil => exact h
  | cons a t ih => exact ih (hasTwoSpace_cons_false a _ (by simpa using h))

theorem hasTwoSpace_of_within (l m : List Char) (h : l <:+: m)
    (hm : hasTwoSpace m = false) : hasTwoSpace l = false := by
  obtain ⟨s, t, rfl⟩ := h
  have h1 : hasTwoSpace (l ++ t) = false := by
    apply hasTwoSpace_append_right s
    rw [← List.append_assoc]
    exact hm
  exact hasTwoSpace_append_left l t h1

/-! ### Lemmas about `pySplitTwoSpace` -/

theorem pySplitTwoSpace_ne_nil (l : List Char) : pySplitTwoSpace l ≠ [] := by
  induction l using pySplitTwoSpace.induct with
  | case1 => simp [pySplitTwoSpace]
  | case2 c => simp [pySplitTwoSpace]
  | case3 c₁ c₂ rest h ih => simp [pySplitTwoSpace, h]
  | case4 c₁ c₂ rest h heq ih =>
    simp only [pySplitTwoSpace, if_neg h]
    cases hh : pySplitTwoSpace (c₂ :: rest) <;> simp
  | case5 c₁ c₂ rest h p ps heq ih =>
    simp only [pySplitTwoSpace, if_neg h]
    cases hh : pySplitTwoSpace (c₂ :: rest) <;> simp

theorem pySplitTwoSpace_head_front (l : List Char) (p : List Char)
    (ps : List (List Char)) (h : pySplitTwoSpace l = p :: ps) : p <+: l := by
  induction l using pySplitTwoSpace.induct generalizing p ps with
  | case1 =>
    simp only [pySplitTwoSpace, List.cons.injEq] at h
    simp [← h.1]
  | case2 c =>
    simp only [pySplitTwoSpace, List.cons.injEq] at h
    simp [← h.1]
  | case3 c₁ c₂ rest hcond ih =>
    simp only [pySplitTwoSpace, if_pos hcond, List.cons.injEq] at h
    simp [← h.1]
  | case4 c₁ c₂ rest hcond heq ih =>
    simp only [pySplitTwoSpace, if_neg hcond, heq, List.cons.injEq] at h
    rw [← h.1]
    exact ⟨c₂ :: rest, rfl⟩
  | case5 c₁ c₂ rest hcond q qs heq ih =>
    simp only [pySplitTwoSpace, if_neg hcond, heq, List.cons.injEq] at h
    rw [← h.1]
    exact List.cons_prefix_cons.mpr ⟨rfl, ih q qs heq⟩

theorem pySplitTwoSpace_mem_no_two (l : List Char) (q : List Char)
    (h : q ∈ pySplitTwoSpace l) : hasTwoSpace q = false := by
  induction l using pySplitTwoSpace.induct generalizing q with
  | case1 =>
    simp only [pySplitTwoSpace, List.mem_singleton] at h
    simp [h, hasTwoSpace]
  | case2 c =>
    simp only [pySplitTwoSpace, List.mem_singleton] at h
    simp [h, hasTwoSpace]
  | case3 c₁ c₂ rest hcond ih =>
    simp only [pySplitTwoSpace, if_pos hcond, List.mem_cons] at h
    rcases h with h | h
    · simp [h, hasTwoSpace]
    · exact ih q h
  | case4 c₁ c₂ rest hcond heq ih =>
    exact absurd heq (pySplitTwoSpace_ne_nil _)
  | case5 c₁ c₂ rest hcond p ps heq ih =>
    simp only [pySplitTwoSpace, if_neg hcond, heq, List.mem_cons] at h
    rcases h with h | h
    · subst h
      cases hp : p with
      | nil => simp [hasTwoSpace]
      | cons d p' =>
        have hpre : d :: p' <+: c₂ :: rest :=
          pySplitTwoSpace_head_front _ _ _ (hp ▸ heq)
        have hd : d = c₂ := ((List.cons_prefix_cons).mp hpre).1
        have htail : hasTwoSpace (d :: p') = false :=
          ih (d :: p') (by rw [heq, hp]; exact List.mem_cons_self _ _)
        rw [hasTwoSpace, if_neg]
        · exact htail
        · rintro ⟨h1, h2⟩
          exact hcond ⟨h1, hd ▸ h2⟩
    · exact ih q (by rw [heq]; exact List.mem_cons.mpr (Or.inr h))

theorem pySplitTwoSpace_eq_single (l : List Char) (h : hasTwoSpace l = false) :
    pySplitTwoSpace l = [l] := by
  induction l using pySplitTwoSpace.induct with
  | case1 => rfl
  | case2 c => rfl
  | case3 c₁ c₂ rest hcond ih =>
    rw [hasTwoSpace, if_pos hcond] at h
    exact absurd h (by simp)
  | case4 c₁ c₂ rest hcond heq ih =>
    exact absurd heq (pySplitTwoSpace_ne_nil _)
  | case5 c₁ c₂ rest hcond p ps heq ih =>
    have htail : hasTwoSpace (c₂ :: rest) = false := hasTwoSpace_cons_false _ _ h
    have := ih htail
    rw [heq] at this
    simp only [List.cons.injEq] at this
    simp only [pySplitTwoSpace, if_neg hcond, heq]
    rw [this.1, this.2]

theorem pySplitTwoSpace_mem_subset (l : List Char) (q : List Char) (a : Char)
    (hq : q ∈ pySplitTwoSpace l) (ha : a ∈ q) : a ∈ l := by
  induction l using pySplitTwoSpace.induct generalizing q with
  | case1 =>
    simp only [pySplitTwoSpace, List.mem_singleton] at hq
    subst hq
    simp at ha
  | case2 c =>
    simp only [pySplitTwoSpace, List.mem_singleton] at hq
    subst hq
    simpa using ha
  | case3 c₁ c₂ rest hcond ih =>
    simp only [pySplitTwoSpace, if_pos hcond, List.mem_cons] at hq
    rcases hq with h | h
    · subst h; simp at ha
    · simp only [List.mem_cons]
      exact Or.inr (Or.inr (ih q h ha))
  | case4 c₁ c₂ rest hcond heq ih =>
    exact absurd heq (pySplitTwoSpace_ne_nil _)
  | case5 c₁ c₂ rest hcond p ps heq ih =>
    simp only [pySplitTwoSpace, if_neg hcond, heq, List.mem_cons] at hq
    rcases hq with h | h
    · subst h
      rcases List.mem_cons.mp ha with h | h
      · simp [h]
      · have := ih p (by rw [heq]; exact List.mem_cons_self _ _) h
        simpa using Or.inr this
    · have := ih q (by rw [heq]; exact List.mem_cons.mpr (Or.inr h)) ha
      simpa using Or.inr this

/-! ### Lemmas about `pySplitlines` and `joinNL` -/

theorem pySplitlines_mem_not_boundary (l : List Char) (q : List Char) (a : Char)
    (hq : q ∈ pySplitlines l) (ha : a ∈ q) : isLineBoundary a = false := by
  induction l using pySplitlines.induct generalizing q with
  | case1 => simp [pySplitlines] at hq
  | case2 c rest hb hcr ih =>
    rw [pySplitlines, if_pos hb, if_pos hcr] at hq
    rcases List.mem_cons.mp hq with h | h
    · subst h; simp at ha
    · exact ih q h ha
  | case3 c rest hb hcr ih =>
    rw [pySplitlines, if_pos hb, if_neg hcr] at hq
    rcases List.mem_cons.mp hq with h | h
    · subst h; simp at ha
    · exact ih q h ha
  | case4 c rest hb heq ih =>
    rw [pySplitlines, if_neg hb, heq] at hq
    simp only [List.mem_singleton] at hq
    subst hq
    rcases List.mem_singleton.mp ha with h
    subst h
    simpa using hb
  | case5 c rest hb p ps heq ih =>
    rw [pySplitlines, if_neg hb, heq] at hq
    rcases List.mem_cons.mp hq with h | h
    · subst h
      rcases List.mem_cons.mp ha with h' | h'
      · subst h'; simpa using hb
      · exact ih p (by rw [heq]; exact List.mem_cons_self _ _) h'
    · exact ih q (by rw [heq]; exact List.mem_cons.mpr (Or.inr h)) ha

theorem pySplitlines_single (l : List Char) (hne : l ≠ [])
    (hfree : ∀ a ∈ l, isLineBoundary a = false) : pySplitlines l = [l] := by
  induction l with
  | nil => exact absurd rfl hne
  | cons c rest ih =>
    have hc : isLineBoundary c = false := hfree c (List.mem_cons_self _ _)
    rw [pySplitlines, if_neg (by simp [hc])]
    cases rest with
    | nil => rw [pySplitlines]
    | cons d rest' =>
      rw [ih (by simp) (fun a hha => hfree a (List.mem_cons.mpr (Or.inr hha)))]

theorem pySplitlines_append (l : List Char) (hne : l ≠ [])
    (hfree : ∀ a ∈ l, isLineBoundary a = false) (t : List Char) :
    pySplitlines (l ++ '\n' :: t) = l :: pySplitlines t := by
  induction l with
  | nil => exact absurd rfl hne
  | cons c rest ih =>
    have hc : isLineBoundary c = false := hfree c (List.mem_cons_self _ _)
    rw [List.cons_append, pySplitlines, if_neg (by simp [hc])]
    cases rest with
    | nil =>
      rw [List.nil_append, pySplitlines, if_pos (by simp [isLineBoundary]),
        if_neg (by simp)]
    | cons d rest' =>
      rw [ih (by simp) (fun a hha => hfree a (List.mem_cons.mpr (Or.inr hha)))]

theorem joinNL_cons₂ (c : List Char) (c₂ : List Char) (cs : List (List Char)) :
    joinNL (c :: c₂ :: cs) = c ++ '\n' :: joinNL (c₂ :: cs) := rfl

/-- Splitting the `'\n'`-join of non-empty boundary-free chunks recovers the
chunks. -/
theorem pySplitlines_joinNL (chunks : List (List Char))
    (hgood : ∀ q ∈ chunks, q ≠ [] ∧ ∀ a ∈ q, isLineBoundary a = false) :
    pySplitlines (joinNL chunks) = chunks := by
  induction chunks with
  | nil => simp [joinNL, pySplitlines]
  | cons c cs ih =>
    obtain ⟨hne, hfree⟩ := hgood c (List.mem_cons_self _ _)
    cases cs with
    | nil => exact pySplitlines_single c hne hfree
    | cons c₂ cs' =>
      rw [joinNL_cons₂, pySplitlines_append c hne hfree,
        ih (fun q hq => hgood q (List.mem_cons.mpr (Or.inr hq)))]

/-- Every chunk produced by `normalizeChunks` is non-empty, already stripped,
free of the `"  "` separator, and free of line boundaries. -/
theorem normalizeChunks_mem (l : List Char) (q : List Char)
    (hq : q ∈ normalizeChunks l) :
    q ≠ [] ∧ pyStrip q = q ∧ hasTwoSpace q = false ∧
      ∀ a ∈ q, isLineBoundary a = false := by
  unfold normalizeChunks at hq
  rw [List.mem_filter] at hq
  obtain ⟨hmem, htruthy⟩ := hq
  rw [List.mem_flatMap] at hmem
  obtain ⟨line, hline, hq'⟩ := hmem
  rw [List.mem_map] at hline hq'
  obtain ⟨line₀, hline₀, rfl⟩ := hline
  obtain ⟨phrase, hphrase, rfl⟩ := hq'
  refine ⟨by simpa using htruthy, pyStrip_idem phrase, ?_, ?_⟩
  · exact hasTwoSpace_of_within _ _ (pyStrip_within phrase)
      (pySplitTwoSpace_mem_no_two _ _ hphrase)
  · intro a ha
    have h1 : a ∈ phrase := pyStrip_subset phrase a ha
    have h2 : a ∈ pyStrip line₀ := pySplitTwoSpace_mem_subset _ _ _ hphrase h1
    have h3 : a ∈ line₀ := pyStrip_subset line₀ a h2
    exact pySplitlines_mem_not_boundary l line₀ a hline₀ h3

theorem map_pyStrip_eq_self (chunks : List (List Char))
    (h : ∀ q ∈ chunks, pyStrip q = q) : chunks.map pyStrip = chunks := by
  induction chunks with
  | nil => rfl
  | cons c cs ih =>
    rw [List.map_cons, h c (List.mem_cons_self _ _),
      ih (fun q hq => h q (List.mem_cons.mpr (Or.inr hq)))]

theorem flatMap_split_eq_self (chunks : List (List Char))
    (h : ∀ q ∈ chunks, pyStrip q = q ∧ hasTwoSpace q = false) :
    chunks.flatMap (fun line => (pySplitTwoSpace line).map pyStrip) = chunks := by
  induction chunks with
  | nil => rfl
  | cons c cs ih =>
    rw [List.flatMap_cons, pySplitTwoSpace_eq_single c (h c (List.mem_cons_self _ _)).2,
      List.map_singleton, (h c (List.mem_cons_self _ _)).1,
      ih (fun q hq => h q (List.mem_cons.mpr (Or.inr hq)))]
    rfl

/-- Re-normalizing a list of good chunks is the identity on the chunk list. -/
theorem normalizeChunks_joinNL (chunks : List (List Char))
    (hgood : ∀ q ∈ chunks, q ≠ [] ∧ pyStrip q = q ∧ hasTwoSpace q = false ∧
      ∀ a ∈ q, isLineBoundary a = false) :
    normalizeChunks (joinNL chunks) = chunks := by
  unfold normalizeChunks
  rw [pySplitlines_joinNL chunks
    (fun q hq => ⟨(hgood q hq).1, (hgood q hq).2.2.2⟩)]
  rw [map_pyStrip_eq_self chunks (fun q hq => (hgood q hq).2.1)]
  rw [flatMap_split_eq_self chunks
    (fun q hq => ⟨(hgood q hq).2.1, (hgood q hq).2.2.1⟩)]
  exact List.filter_eq_self.mpr (fun a ha => by simpa using (hgood a ha).1)

theorem normalizeList_idem (l : List Char) :
    normalizeList (normalizeList l) = normalizeList l := by
  unfold normalizeList
  rw [normalizeChunks_joinNL (normalizeChunks l) (normalizeChunks_mem l)]

/-! ### String-level helpers -/

theorem toList_append (a b : String) : (a ++ b).toList = a.toList ++ b.toList := rfl

theorem foldl_append_toList (l : List String) (s : String) :
    (l.foldl (· ++ ·) s).toList = s.toList ++ (l.map String.toList).flatten := by
  induction l generalizing s with
  | nil => simp
  | cons a l ih =>
    rw [List.foldl_cons, ih, toList_append]
    simp [List.append_assoc]

theorem toList_join (l : List String) :
    (String.join l).toList = (l.map String.toList).flatten := by
  unfold String.join
  rw [foldl_append_toList]
  rfl

theorem mem_infix_join (l : List String) (s : String) (h : s ∈ l) :
    s.toList <:+: (String.join l).toList := by
  rw [toList_join]
  obtain ⟨l₁, l₂, rfl⟩ := List.append_of_mem h
  rw [List.map_append, List.map_cons, List.flatten_append, List.flatten_cons]
  exact ⟨(l₁.map String.toList).flatten, (l₂.map String.toList).flatten,
    by simp [List.append_assoc]⟩

theorem infix_middle (a b c : String) : b.toList <:+: (a ++ b ++ c).toList :=
  ⟨a.toList, c.toList, rfl⟩

/-- The accumulating loop of `scraper_node` equals the join of the per-URL sections. -/
theorem scraper_node_eq_join (env : Env) (state : AgentState) :
    (scraper_node env state).scraped_content
      = String.join (state.urls.map (fun url => sectionFor env.getText url (env.fetch url))) := by
  unfold scraper_node String.join
  rw [List.foldl_map]

/-- Every section emitted by `scraper_node` carries its source URL verbatim. -/
theorem url_infix_sectionFor (getText : String → String) (url : String)
    (r : FetchResult) : url.toList <:+: (sectionFor getText url r).toList := by
  cases r with
  | response statusCode text =>
    rw [sectionFor]
    split
    · exact ((infix_middle "\n--- Content from " url
        (" ---\n" ++ normalize (getText text) ++ "\n")).trans
          (⟨[], [], by simp [toList_append, List.append_assoc]⟩))
    · exact ⟨"\n--- Failed to scrape ".toList,
        (" (Status: " ++ toString statusCode ++ ") ---\n").toList,
        by simp [toList_append, List.append_assoc]⟩
  | exn e =>
    exact ⟨"\n--- Error scraping ".toList, (": " ++ e ++ " ---\n").toList,
      by simp [sectionFor, toList_append, List.append_assoc]⟩

/-! ### Claim theorems -/

/-- Claim C8: the text normalization applied by the scraper (strip each line,
split on double-space runs, drop empty chunks, join with newlines) is
idempotent. Proved for every input string, which subsumes the claim's
restriction to markup-free text. -/
theorem normalize_idempotent (x : String) : normalize (normalize x) = normalize x := by
  unfold normalize
  rw [show ((normalizeList x.toList).asString).toList = normalizeList x.toList from rfl,
    normalizeList_idem]

/-- Claim C1: for every input URL list, `scraper_node` writes to
`scraped_content` exactly the concatenation of one section per requested URL,
in input order (the `map` over `state.urls`), with as many sections as URLs,
and every section carries its source URL verbatim — no URL is dropped,
however many fetches fail. -/
theorem scraper_one_section_per_url (env : Env) (state : AgentState) :
    (scraper_node env state).scraped_content
        = String.join (state.urls.map (fun url => sectionFor env.getText url (env.fetch url)))
      ∧ (state.urls.map (fun url => sectionFor env.getText url (env.fetch url))).length
          = state.urls.length
      ∧ ∀ url r, url.toList <:+: (sectionFor env.getText url r).toList :=
  ⟨scraper_node_eq_join env state, List.length_map _ _,
    fun url r => url_infix_sectionFor env.getText url r⟩

/-- Claim C3: a failing URL (non-200 status or exception) does not disturb the
rest of the scrape: the output is still the join over all URLs, the failing
URL's section appears inside `scraped_content`, and that section is exactly
the textual failure marker of the matching kind. -/
theorem scraper_isolates_failures (env : Env) (state : AgentState)
    (i : Nat) (hi : i < state.urls.length)
    (hfail : isFailure (env.fetch (state.urls.get ⟨i, hi⟩)) = true) :
    (scraper_node env state).scraped_content
        = String.join (state.urls.map (fun url => sectionFor env.getText url (env.fetch url)))
      ∧ (sectionFor env.getText (state.urls.get ⟨i, hi⟩)
            (env.fetch (state.urls.get ⟨i, hi⟩))).toList
          <:+: (scraper_node env state).scraped_content.toList
      ∧ ((∃ s b, env.fetch (state.urls.get ⟨i, hi⟩) = FetchResult.response s b
            ∧ s ≠ 200
            ∧ sectionFor env.getText (state.urls.get ⟨i, hi⟩)
                (env.fetch (state.urls.get ⟨i, hi⟩))
              = "\n--- Failed to scrape " ++ state.urls.get ⟨i, hi⟩
                  ++ " (Status: " ++ toString s ++ ") ---\n")
        ∨ (∃ e, env.fetch (state.urls.get ⟨i, hi⟩) = FetchResult.exn e
            ∧ sectionFor env.getText (state.urls.get ⟨i, hi⟩)
                (env.fetch (state.urls.get ⟨i, hi⟩))
              = "\n--- Error scraping " ++ state.urls.get ⟨i, hi⟩
                  ++ ": " ++ e ++ " ---\n")) := by
  refine ⟨scraper_node_eq_join env state, ?_, ?_⟩
  · rw [scraper_node_eq_join env state]
    apply mem_infix_join
    exact List.mem_map.mpr ⟨state.urls.get ⟨i, hi⟩, List.get_mem _ _ _, rfl⟩
  · cases hr : env.fetch (state.urls.get ⟨i, hi⟩) with
    | response s b =>
      left
      have hs : s ≠ 200 := by
        rw [hr] at hfail
        simpa [isFailure] using hfail
      exact ⟨s, b, rfl, hs, by rw [sectionFor, if_neg hs]⟩
    | exn e => exact Or.inr ⟨e, rfl, by rw [sectionFor]⟩

/-- Witness for C3: with one URL whose fetch raises `"boom"`, the
isolation theorem applies, and its conclusion holds at that concrete input. -/
theorem scraper_isolates_failures_witness :
    (scraper_node envFail stFail).scraped_content
        = String.join (stFail.urls.map (fun url => sectionFor envFail.getText url (envFail.fetch url)))
      ∧ (sectionFor envFail.getText "http://x" (envFail.fetch "http://x")).toList
          <:+: (scraper_node envFail stFail).scraped_content.toList
      ∧ ((∃ s b, envFail.fetch "http://x" = FetchResult.response s b
            ∧ s ≠ 200
            ∧ sectionFor envFail.getText "http://x" (envFail.fetch "http://x")
              = "\n--- Failed to scrape " ++ "http://x"
                  ++ " (Status: " ++ toString s ++ ") ---\n")
        ∨ (∃ e, envFail.fetch "http://x" = FetchResult.exn e
            ∧ sectionFor envFail.getText "http://x" (envFail.fetch "http://x")
              = "\n--- Error scraping " ++ "http://x" ++ ": " ++ e ++ " ---\n")) :=
  scraper_isolates_failures envFail stFail 0 (by decide) rfl

theorem String_append_ne_empty (s t : String) (h : s.toList ≠ []) : s ++ t ≠ "" := by
  intro he
  have h2 := congrArg String.toList he
  rw [toList_append] at h2
  exact h (List.append_eq_nil.mp h2).1

/-- Counterexample to claim C2 as stated: when the classification call itself
throws, `validation_node` does not absorb the exception — the `llm.invoke`
call sits outside the `try`/`except` block, so the error propagates past the
node boundary instead of resolving to a `(validation_status, final_response)`
pair. -/
theorem validation_raises_on_classifier_exception :
    validation_node envRaise stFail = Except.error "LLM unreachable" := rfl

/-- Claim C2 (amended): provided the classification call returns normally
(with any reply string whatsoever), `validation_node` never raises: for every
input state and every behavior of the credential and logging collaborators it
returns a well-formed result with a non-empty `validation_status`, and its
`final_response` is either the untouched composed response or the fixed
acknowledgment. -/
theorem validation_total_given_classifier_reply (env : Env) (st : AgentState)
    (classification : String)
    (hc : env.invoke validationSystemMsg ("User Query: " ++ st.query)
      = .ok classification) :
    (validation_node env st).isOk = true
    ∧ statusOf (validation_node env st) ≠ ""
    ∧ (responseOf (validation_node env st) = st.final_response
       ∨ responseOf (validation_node env st) = acknowledgment) := by
  unfold validation_node
  rw [hc]
  simp only
  split
  · split
    · cases happ : env.sheetAppend (env.creds_json.getD "") (env.sheet_id.getD "")
          [env.now, st.query] with
      | ok u =>
        refine ⟨rfl, ?_, Or.inr rfl⟩
        simp [statusOf]
      | error e =>
        refine ⟨rfl, ?_, Or.inr rfl⟩
        simp only [statusOf]
        exact String_append_ne_empty _ e (by decide)
    · refine ⟨rfl, ?_, Or.inr rfl⟩
      simp [statusOf]
  · refine ⟨rfl, ?_, Or.inl rfl⟩
    simp [statusOf]

/-- Witness for the amended C2: the benign environment `envFail` classifies
normally, and the theorem's conclusion holds there. -/
theorem validation_total_given_classifier_reply_witness :
    (validation_node envFail stFail).isOk = true
    ∧ statusOf (validation_node envFail stFail) ≠ ""
    ∧ (responseOf (validation_node envFail stFail) = stFail.final_response
       ∨ responseOf (validation_node envFail stFail) = acknowledgment) :=
  validation_total_given_classifier_reply envFail stFail "NORMAL_QUESTION" rfl

/-- Claim C7: when the classifier reply does not contain the complaint label,
`validation_node` returns the input state with only `validation_status`
changed (to the not-logged marker): `final_response` and every other field
are exactly what the upstream stages produced, and nothing is appended to the
log. -/
theorem routine_leaves_response_untouched (env : Env) (st : AgentState)
    (classification : String)
    (hc : env.invoke validationSystemMsg ("User Query: " ++ st.query)
      = .ok classification)
    (hroutine : hasSub (pyUpper (pyStripString classification))
      "COMPLAINT_OR_ISSUE" = false) :
    validation_node env st
        = .ok ({ st with validation_status := "NORMAL_QUESTION - Not logged" }, [])
    ∧ responseOf (validation_node env st) = st.final_response
    ∧ statusOf (validation_node env st) = "NORMAL_QUESTION - Not logged"
    ∧ rowsOf (validation_node env st) = [] := by
  have hmain : validation_node env st
      = .ok ({ st with validation_status := "NORMAL_QUESTION - Not logged" }, []) := by
    unfold validation_node
    rw [hc]
    simp only
    rw [if_neg (by simp [hroutine])]
  exact ⟨hmain, by rw [hmain]; rfl, by rw [hmain]; rfl, by rw [hmain]; rfl⟩

/-- Witness for C7: with a classifier replying `"NORMAL_QUESTION"`, the
routine branch leaves the state unchanged apart from `validation_status`. -/
theorem routine_leaves_response_untouched_witness :
    validation_node envFail stFail
        = .ok ({ stFail with validation_status := "NORMAL_QUESTION - Not logged" }, [])
    ∧ responseOf (validation_node envFail stFail) = stFail.final_response
    ∧ statusOf (validation_node envFail stFail) = "NORMAL_QUESTION - Not logged"
    ∧ rowsOf (validation_node envFail stFail) = [] :=
  routine_leaves_response_untouched envFail stFail "NORMAL_QUESTION" rfl (by decide)

/-- Claim C9: the durable-log row is `[timestamp, query]` — exactly two
fields, never the composed response. Changing only `final_response` of the
input state changes nothing about what is appended, and any run appends
either nothing or exactly that one row. -/
theorem log_row_independent_of_response (env : Env) (st : AgentState) (r : String) :
    rowsOf (validation_node env { st with final_response := r })
        = rowsOf (validation_node env st)
    ∧ (rowsOf (validation_node env st) = []
       ∨ rowsOf (validation_node env st) = [[env.now, st.query]])
    ∧ ([env.now, st.query] : List String).length = 2 := by
  refine ⟨?_, ?_, rfl⟩ <;>
  · unfold validation_node
    simp only
    cases hinv : env.invoke validationSystemMsg ("User Query: " ++ st.query) with
    | error e => simp [rowsOf]
    | ok classification =>
      simp only
      by_cases hb : hasSub (pyUpper (pyStripString classification))
          "COMPLAINT_OR_ISSUE" = true
      · by_cases hcr : (credsTruthy env.creds_json && credsTruthy env.sheet_id) = true
        · cases happ : env.sheetAppend (env.creds_json.getD "") (env.sheet_id.getD "")
              [env.now, st.query] with
          | ok u => simp [rowsOf, hb, hcr, happ]
          | error e => simp [rowsOf, hb, hcr, happ]
        · simp [rowsOf, hb, hcr]
      · simp [rowsOf, hb]

/-- Claim C5: when the classifier flags the query but the Google-Sheets
collaborator is unavailable (falsy credentials) or its append throws, the
request still succeeds: `validation_node` returns normally, substitutes the
non-empty fixed acknowledgment, durably logs nothing, and records the
specific not-logged sub-case in `validation_status`. -/
theorem complaint_log_unavailable_degrades (env : Env) (st : AgentState)
    (classification : String)
    (hc : env.invoke validationSystemMsg ("User Query: " ++ st.query)
      = .ok classification)
    (hbranch : hasSub (pyUpper (pyStripString classification))
      "COMPLAINT_OR_ISSUE" = true)
    (hfail : (credsTruthy env.creds_json && credsTruthy env.sheet_id) = false
      ∨ ∃ e, env.sheetAppend (env.creds_json.getD "") (env.sheet_id.getD "")
          [env.now, st.query] = .error e) :
    (validation_node env st).isOk = true
    ∧ responseOf (validation_node env st) = acknowledgment
    ∧ acknowledgment ≠ ""
    ∧ rowsOf (validation_node env st) = []
    ∧ (statusOf (validation_node env st)
          = "COMPLAINT/ISSUE - No Google Sheets credentials configured"
       ∨ "COMPLAINT/ISSUE - Error logging: ".toList
           <+: (statusOf (validation_node env st)).toList) := by
  unfold validation_node
  rw [hc]
  simp only
  by_cases hcr : (credsTruthy env.creds_json && credsTruthy env.sheet_id) = true
  · rcases hfail with hfalse | ⟨e, he⟩
    · rw [hcr] at hfalse
      exact absurd hfalse (by simp)
    · simp only [if_pos hbranch, if_pos hcr, he]
      exact ⟨rfl, rfl, by decide, rfl, Or.inr ⟨e.toList, rfl⟩⟩
  · simp only [if_pos hbranch, if_neg hcr]
    exact ⟨rfl, rfl, by decide, rfl, Or.inl rfl⟩

/-- Witness for C5 at a concrete input: missing credentials still yield the
acknowledgment and a "no credentials" status. -/
theorem complaint_log_unavailable_degrades_witness :
    (validation_node envNoCreds stFail).isOk = true
    ∧ responseOf (validation_node envNoCreds stFail) = acknowledgment
    ∧ acknowledgment ≠ ""
    ∧ rowsOf (validation_node envNoCreds stFail) = []
    ∧ (statusOf (validation_node envNoCreds stFail)
          = "COMPLAINT/ISSUE - No Google Sheets credentials configured"
       ∨ "COMPLAINT/ISSUE - Error logging: ".toList
           <+: (statusOf (validation_node envNoCreds stFail)).toList) :=
  complaint_log_unavailable_degrades envNoCreds stFail "COMPLAINT_OR_ISSUE" rfl
    (by decide) (Or.inl rfl)

/-- Claim C6: when the classifier flags the query and the sheet append
succeeds, `validation_node` returns exactly the state whose
`validation_status` is the logged marker and whose `final_response` is the
acknowledgment — byte-for-byte the template, with the composed guide
discarded (the equation holds for every input `final_response`) — and the log
receives the single timestamped row `[timestamp, query]`. -/
theorem complaint_logged_acknowledgment (env : Env) (st : AgentState)
    (classification : String)
    (hc : env.invoke validationSystemMsg ("User Query: " ++ st.query)
      = .ok classification)
    (hbranch : hasSub (pyUpper (pyStripString classification))
      "COMPLAINT_OR_ISSUE" = true)
    (hcreds : (credsTruthy env.creds_json && credsTruthy env.sheet_id) = true)
    (happ : env.sheetAppend (env.creds_json.getD "") (env.sheet_id.getD "")
        [env.now, st.query] = .ok ()) :
    validation_node env st
      = .ok ({ st with
                validation_status := "COMPLAINT/ISSUE - Logged to Google Sheets",
                final_response := acknowledgment }, [[env.now, st.query]]) := by
  unfold validation_node
  rw [hc]
  simp only [if_pos hbranch, if_pos hcreds, happ]

/-- Witness for C6 at a concrete input. -/
theorem complaint_logged_acknowledgment_witness :
    validation_node envLogged stFail
      = .ok ({ stFail with
                validation_status := "COMPLAINT/ISSUE - Logged to Google Sheets",
                final_response := acknowledgment },
             [[envLogged.now, stFail.query]]) :=
  complaint_logged_acknowledgment envLogged stFail "COMPLAINT_OR_ISSUE" rfl
    (by decide) (by decide) rfl

/-- Claim C10: the complaint branch is taken exactly when the classifier
reply — stripped and upper-cased — contains `"COMPLAINT_OR_ISSUE"` as a
substring, so replies that are not exactly the label (sentences containing
the phrase, including negations of it) still trigger logging. -/
theorem complaint_branch_iff_substring (env : Env) (st : AgentState)
    (classification : String)
    (hc : env.invoke validationSystemMsg ("User Query: " ++ st.query)
      = .ok classification) :
    complaintBranchTaken (validation_node env st) = true
      ↔ "COMPLAINT_OR_ISSUE".toList
          <:+: (pyUpper (pyStripString classification)).toList := by
  unfold validation_node
  rw [hc]
  simp only
  by_cases hb : hasSub (pyUpper (pyStripString classification))
      "COMPLAINT_OR_ISSUE" = true
  · rw [if_pos hb]
    refine ⟨fun _ => of_decide_eq_true hb, fun _ => ?_⟩
    by_cases hcr : (credsTruthy env.creds_json && credsTruthy env.sheet_id) = true
    · cases happ : env.sheetAppend (env.creds_json.getD "") (env.sheet_id.getD "")
          [env.now, st.query] with
      | ok u =>
        simp only [if_pos hcr, happ, complaintBranchTaken]
        exact decide_eq_true (by decide)
      | error e =>
        simp only [if_pos hcr, happ, complaintBranchTaken]
        apply decide_eq_true
        exact (show "COMPLAINT/ISSUE".toList
            <+: "COMPLAINT/ISSUE - Error logging: ".toList by decide).trans
          (List.prefix_append _ e.toList)
    · simp only [if_neg hcr, complaintBranchTaken]
      exact decide_eq_true (by decide)
  · rw [if_neg hb]
    constructor
    · intro hcb
      exact absurd hcb (by simp [complaintBranchTaken])
    · intro h
      exact absurd (decide_eq_true h) hb

/-- Witness for C10: a classifier reply that is a negation sentence
containing the label still takes the complaint branch. -/
theorem complaint_branch_iff_substring_witness :
    complaintBranchTaken (validation_node envNeg stFail) = true :=
  (complaint_branch_iff_substring envNeg stFail "It is not a COMPLAINT_OR_ISSUE"
    rfl).mpr (by decide)

/-- Claim C4: for targets `[urlA, urlB]` where `urlA` serves HTTP 200 and
`urlB` serves HTTP 404, the scraper emits one success section with `urlA`'s
extracted text followed by one failure section naming `urlB` and status 404,
and — whenever the LLM collaborator answers (with non-empty replies) — the
whole pipeline still completes with a non-empty `final_response`. -/
theorem scenario_mixed_status_pipeline (env : Env) (st : AgentState)
    (urlA urlB bodyA bodyB : String)
    (hurls : st.urls = [urlA, urlB])
    (hA : env.fetch urlA = .response 200 bodyA)
    (hB : env.fetch urlB = .response 404 bodyB)
    (hok : ∀ s u, ∃ c, env.invoke s u = .ok c)
    (hne : ∀ s u c, env.invoke s u = .ok c → c ≠ "") :
    (scraper_node env st).scraped_content
        = "\n--- Content from " ++ urlA ++ " ---\n"
            ++ normalize (env.getText bodyA) ++ "\n"
          ++ ("\n--- Failed to scrape " ++ urlB ++ " (Status: " ++ "404"
              ++ ") ---\n")
      ∧ (graph_app env st).isOk = true
      ∧ responseOf (graph_app env st) ≠ "" := by
  have hsec : (scraper_node env st).scraped_content
      = "\n--- Content from " ++ urlA ++ " ---\n"
          ++ normalize (env.getText bodyA) ++ "\n"
        ++ ("\n--- Failed to scrape " ++ urlB ++ " (Status: " ++ "404"
            ++ ") ---\n") := by
    rw [scraper_node_eq_join, hurls, List.map_cons, List.map_cons, List.map_nil,
      hA, hB]
    rfl
  obtain ⟨a, ha⟩ := hok analystSystemMsg
    ("Query: " ++ (scraper_node env st).query ++ "\n\nScraped Content:\n"
      ++ (scraper_node env st).scraped_content)
  have h2 : analyst_node env (scraper_node env st)
      = .ok { scraper_node env st with analysis := a } := by
    unfold analyst_node
    rw [ha]
    rfl
  obtain ⟨r, hr⟩ := hok responderSystemMsg
    ("Query: " ++ ({ scraper_node env st with analysis := a } : AgentState).query
      ++ "\nAnalysis:\n"
      ++ ({ scraper_node env st with analysis := a } : AgentState).analysis)
  have h3 : responder_node env { scraper_node env st with analysis := a }
      = .ok { scraper_node env st with analysis := a, final_response := r } := by
    unfold responder_node
    rw [hr]
    rfl
  have hg : graph_app env st
      = validation_node env { scraper_node env st with analysis := a, final_response := r } := by
    show (analyst_node env (scraper_node env st) >>= fun s2 =>
        responder_node env s2 >>= fun s3 => validation_node env s3)
      = validation_node env { scraper_node env st with analysis := a, final_response := r }
    rw [h2]
    rw [show ((Except.ok { scraper_node env st with analysis := a } :
          Except String AgentState) >>= fun s2 =>
        responder_node env s2 >>= fun s3 => validation_node env s3)
      = (responder_node env { scraper_node env st with analysis := a }
          >>= fun s3 => validation_node env s3) from rfl]
    rw [h3]
    rfl
  obtain ⟨cls, hcls⟩ := hok validationSystemMsg
    ("User Query: "
      ++ ({ scraper_node env st with analysis := a, final_response := r } : AgentState).query)
  have hval : (validation_node env
        { scraper_node env st with analysis := a, final_response := r }).isOk = true
      ∧ responseOf (validation_node env
          { scraper_node env st with analysis := a, final_response := r }) ≠ "" := by
    unfold validation_node
    rw [hcls]
    simp only
    by_cases hbr : hasSub (pyUpper (pyStripString cls)) "COMPLAINT_OR_ISSUE" = true
    · rw [if_pos hbr]
      by_cases hcr : (credsTruthy env.creds_json && credsTruthy env.sheet_id) = true
      · rw [if_pos hcr]
        split
        · exact ⟨rfl, show acknowledgment ≠ "" by decide⟩
        · exact ⟨rfl, show acknowledgment ≠ "" by decide⟩
      · rw [if_neg hcr]
        exact ⟨rfl, show acknowledgment ≠ "" by decide⟩
    · rw [if_neg hbr]
      exact ⟨rfl, hne _ _ _ hr⟩
  exact ⟨hsec, by rw [hg]; exact hval.1, by rw [hg]; exact hval.2⟩

/-- Witness for C4 at a concrete input. -/
theorem scenario_mixed_status_pipeline_witness :
    (scraper_node envPipe stPipe).scraped_content
        = "\n--- Content from " ++ "http://a" ++ " ---\n"
            ++ normalize (envPipe.getText "Click Submit") ++ "\n"
          ++ ("\n--- Failed to scrape " ++ "http://b" ++ " (Status: " ++ "404"
              ++ ") ---\n")
      ∧ (graph_app envPipe stPipe).isOk = true
      ∧ responseOf (graph_app envPipe stPipe) ≠ "" :=
  scenario_mixed_status_pipeline envPipe stPipe "http://a" "http://b"
    "Click Submit" "missing" rfl (by decide) (by decide)
    (fun _ _ => ⟨"NORMAL_QUESTION", rfl⟩)
    (fun _ _ c hc => by cases hc; decide)

end AMS
